import Mathlib

/-!
Shallow embedding of the mORMaid diagram library (Rust) and proofs about it.

The library builds in-memory models of entity-relationship diagrams (ERD)
and requirement diagrams and renders them to mermaid text.  Rust `String`
is modelled by Lean `String`, `HashMap` by an association list with
insert-replaces-existing semantics, `Vec` by `List`, panics
(`assert!` failures) by returning the panic message together with the
untouched state.
-/

set_option maxHeartbeats 1000000

namespace Mormaid

/-! ### Association-list model of `std::collections::HashMap`

Only the operations the source uses are modelled: `insert` (replace the
existing entry for the key, otherwise add a new one), `get` and
`contains_key`.  `HashMap::len` is the list length (keys stay unique
because insert replaces). -/

/-- Model of `HashMap::contains_key`. -/
def containsKey {κ α : Type} [DecidableEq κ] : List (κ × α) → κ → Bool
  | [], _ => false
  | p :: m, k => if p.1 = k then true else containsKey m k

/-- Model of `HashMap::get`. -/
def lookupKey {κ α : Type} [DecidableEq κ] : List (κ × α) → κ → Option α
  | [], _ => none
  | p :: m, k => if p.1 = k then some p.2 else lookupKey m k

/-- Model of `HashMap::insert`: replace the entry for an existing key,
otherwise append a fresh entry. -/
def insertKey {κ α : Type} [DecidableEq κ] : List (κ × α) → κ → α → List (κ × α)
  | [], k, v => [(k, v)]
  | p :: m, k, v => if p.1 = k then (k, v) :: m else p :: insertKey m k v

theorem containsKey_insertKey_self {κ α : Type} [DecidableEq κ]
    (m : List (κ × α)) (k : κ) (v : α) : containsKey (insertKey m k v) k = true := by
  induction m with
  | nil => simp [insertKey, containsKey]
  | cons p m ih =>
    by_cases h : p.1 = k <;> simp [insertKey, containsKey, h, ih]

theorem containsKey_insertKey_of_containsKey {κ α : Type} [DecidableEq κ]
    {m : List (κ × α)} {k' : κ} (k : κ) (v : α) (h : containsKey m k' = true) :
    containsKey (insertKey m k v) k' = true := by
  induction m with
  | nil => simp [containsKey] at h
  | cons p m ih =>
    simp only [containsKey] at h
    by_cases hp : p.1 = k
    · subst hp
      simp only [insertKey, if_pos rfl, containsKey]
      exact h
    · simp only [insertKey, if_neg hp, containsKey]
      by_cases hk : p.1 = k'
      · simp [hk]
      · simp only [if_neg hk] at h ⊢
        exact ih h

theorem containsKey_insertKey_of_ne {κ α : Type} [DecidableEq κ]
    {m : List (κ × α)} {k k' : κ} (v : α) (hne : k' ≠ k) :
    containsKey (insertKey m k v) k' = containsKey m k' := by
  induction m with
  | nil => simp [insertKey, containsKey, Ne.symm hne]
  | cons p m ih =>
    by_cases hp : p.1 = k
    · subst hp
      simp only [insertKey, if_pos rfl, containsKey]
    · simp only [insertKey, if_neg hp, containsKey, ih]

theorem lookupKey_insertKey_self {κ α : Type} [DecidableEq κ]
    (m : List (κ × α)) (k : κ) (v : α) : lookupKey (insertKey m k v) k = some v := by
  induction m with
  | nil => simp [insertKey, lookupKey]
  | cons p m ih =>
    by_cases h : p.1 = k <;> simp [insertKey, lookupKey, h, ih]

theorem lookupKey_insertKey_of_ne {κ α : Type} [DecidableEq κ]
    {m : List (κ × α)} {k k' : κ} (v : α) (hne : k' ≠ k) :
    lookupKey (insertKey m k v) k' = lookupKey m k' := by
  induction m with
  | nil => simp [insertKey, lookupKey, Ne.symm hne]
  | cons p m ih =>
    by_cases hp : p.1 = k
    · subst hp
      simp only [insertKey, if_pos rfl, lookupKey, if_neg (Ne.symm hne)]
    · simp only [insertKey, if_neg hp, lookupKey, ih]

theorem lookupKey_eq_none_iff {κ α : Type} [DecidableEq κ]
    (m : List (κ × α)) (k : κ) : lookupKey m k = none ↔ containsKey m k = false := by
  induction m with
  | nil => simp [lookupKey, containsKey]
  | cons p m ih =>
    by_cases h : p.1 = k <;> simp [lookupKey, containsKey, h, ih]

theorem length_insertKey_of_not_containsKey {κ α : Type} [DecidableEq κ]
    {m : List (κ × α)} {k : κ} (v : α) (h : containsKey m k = false) :
    (insertKey m k v).length = m.length + 1 := by
  induction m with
  | nil => simp [insertKey]
  | cons p m ih =>
    simp only [containsKey] at h
    by_cases hp : p.1 = k
    · simp [hp] at h
    · simp [hp] at h
      simp [insertKey, hp, ih h]

theorem length_insertKey_of_containsKey {κ α : Type} [DecidableEq κ]
    {m : List (κ × α)} {k : κ} (v : α) (h : containsKey m k = true) :
    (insertKey m k v).length = m.length := by
  induction m with
  | nil => simp [containsKey] at h
  | cons p m ih =>
    simp only [containsKey] at h
    by_cases hp : p.1 = k
    · simp [insertKey, hp]
    · simp [hp] at h
      simp [insertKey, hp, ih h]

/-! ### `src/erd/mod.rs` — `EntityId` and the `ERD` container -/

/-- Embeds `struct EntityId(String)` from `src/erd/mod.rs`. -/
structure EntityId where
  val : String
deriving DecidableEq, Repr

/-- Embeds `impl From<&str> for EntityId`: `EntityId(s.to_string())`. -/
def EntityId.fromStr (s : String) : EntityId := ⟨s⟩

/-- Embeds `EntityId::as_str`. -/
def EntityId.as_str (id : EntityId) : String := id.val

/-! ### `src/erd/entity.rs` — `Entity`, `Attribute`, `KeyConstraints` -/

/-- Embeds `struct KeyConstraints` from `src/erd/entity.rs`. -/
structure KeyConstraints where
  is_primary : Bool
  is_foreign : Bool
  is_unique : Bool
deriving DecidableEq, Repr

/-- Embeds `enum ConstraintCombo` from `src/erd/entity.rs`. -/
inductive ConstraintCombo where
  | none
  | primaryKey
  | foreignKey
  | uniqueKey
  | primaryForeignKey
  | primaryUniqueKey
  | foreignUniqueKey
  | primaryForeignUniqueKey
deriving DecidableEq, Repr

/-- Embeds `ConstraintCombo::from_bools`. -/
def ConstraintCombo.from_bools (is_primary is_foreign is_unique : Bool) : ConstraintCombo :=
  match is_primary, is_foreign, is_unique with
  | false, false, false => ConstraintCombo.none
  | true, false, false => ConstraintCombo.primaryKey
  | false, true, false => ConstraintCombo.foreignKey
  | false, false, true => ConstraintCombo.uniqueKey
  | true, true, false => ConstraintCombo.primaryForeignKey
  | true, false, true => ConstraintCombo.primaryUniqueKey
  | false, true, true => ConstraintCombo.foreignUniqueKey
  | true, true, true => ConstraintCombo.primaryForeignUniqueKey

/-- Embeds `KeyConstraints::default`. -/
def KeyConstraints.default : KeyConstraints :=
  { is_primary := false, is_foreign := false, is_unique := false }

/-- Embeds `KeyConstraints::to_combo`. -/
def KeyConstraints.to_combo (k : KeyConstraints) : ConstraintCombo :=
  ConstraintCombo.from_bools k.is_primary k.is_foreign k.is_unique

/-- Embeds `impl fmt::Display for KeyConstraints` from `src/erd/entity.rs`. -/
def KeyConstraints.display (k : KeyConstraints) : String :=
  match k.to_combo with
  | ConstraintCombo.none => ""
  | ConstraintCombo.primaryKey => "PK"
  | ConstraintCombo.foreignKey => "FK"
  | ConstraintCombo.uniqueKey => "UK"
  | ConstraintCombo.primaryForeignKey => "PK, FK"
  | ConstraintCombo.primaryUniqueKey => "PK, UK"
  | ConstraintCombo.foreignUniqueKey => "FK, UK"
  | ConstraintCombo.primaryForeignUniqueKey => "PK, FK, UK"

/-- Embeds `struct Attribute` from `src/erd/entity.rs`. -/
structure Attribute where
  attr_type : String
  name : String
  key : KeyConstraints
  comment : Option String
deriving DecidableEq, Repr

/-- Embeds `Attribute::new`. -/
def Attribute.new (attr_type name : String) : Attribute :=
  { attr_type := attr_type, name := name, key := KeyConstraints.default, comment := none }

/-- Embeds `Attribute::with_comment`. -/
def Attribute.with_comment (a : Attribute) (comment : String) : Attribute :=
  { a with comment := some comment }

/-- Embeds `Attribute::as_primary_key`. -/
def Attribute.as_primary_key (a : Attribute) : Attribute :=
  { a with key := { a.key with is_primary := true } }

/-- Embeds `Attribute::as_foreign_key`. -/
def Attribute.as_foreign_key (a : Attribute) : Attribute :=
  { a with key := { a.key with is_foreign := true } }

/-- Embeds `Attribute::as_unique`. -/
def Attribute.as_unique (a : Attribute) : Attribute :=
  { a with key := { a.key with is_unique := true } }

/-- Embeds `Attribute::has_constraints`. -/
def Attribute.has_constraints (a : Attribute) : Bool :=
  a.key.is_primary || a.key.is_foreign || a.key.is_unique

/-- Embeds `impl fmt::Display for Attribute` from `src/erd/entity.rs`: required
fields first, then the key-constraint suffix when `has_constraints`, then the
quoted comment when present. -/
def Attribute.display (a : Attribute) : String :=
  let attr_str := a.attr_type ++ " " ++ a.name
  let attr_str := if a.has_constraints then attr_str ++ " " ++ a.key.display else attr_str
  let attr_str :=
    match a.comment with
    | some comment => attr_str ++ " \"" ++ comment ++ "\""
    | none => attr_str
  attr_str

/-- Embeds `struct Entity` from `src/erd/entity.rs`. -/
structure Entity where
  id : String
  «alias» : Option String
  attributes : List Attribute
deriving DecidableEq, Repr

/-- Embeds `Entity::new`. -/
def Entity.new (id : String) : Entity :=
  { id := id, «alias» := none, attributes := [] }

/-- Embeds `Entity::with_alias`. -/
def Entity.with_alias (e : Entity) (a : String) : Entity :=
  { e with «alias» := some a }

/-- Embeds `Entity::add_attribute`. -/
def Entity.add_attribute (e : Entity) (attr : Attribute) : Entity :=
  { e with attributes := e.attributes ++ [attr] }

/-- Embeds `impl fmt::Display for Entity` from `src/erd/entity.rs` (lines
48-58): the id, then `["alias"]` when an alias is set; the `attributes`
field is not consulted by this implementation. -/
def Entity.display (e : Entity) : String :=
  let entity_str := e.id
  let entity_str :=
    match e.«alias» with
    | some a => entity_str ++ "[\"" ++ a ++ "\"]"
    | none => entity_str
  entity_str

/-! ### `src/erd/relationship.rs` — `Cardinality` and ERD `Relationship` -/

/-- Embeds `enum Cardinality` from `src/erd/relationship.rs`. -/
inductive Cardinality where
  | zeroOrOne
  | exactlyOne
  | zeroOrMore
  | oneOrMore
deriving DecidableEq, Repr

/-- Embeds `enum Direction` from `src/erd/relationship.rs`. -/
inductive Direction where
  | left
  | right
deriving DecidableEq, Repr

/-- Embeds `Cardinality::fmt_with_direction`. -/
def Cardinality.fmt_with_direction (c : Cardinality) (dir : Direction) : String :=
  match c, dir with
  | Cardinality.zeroOrOne, Direction.left => "|o"
  | Cardinality.exactlyOne, Direction.left => "||"
  | Cardinality.zeroOrMore, Direction.left => "\x7do"
  | Cardinality.oneOrMore, Direction.left => "\x7d|"
  | Cardinality.zeroOrOne, Direction.right => "o|"
  | Cardinality.exactlyOne, Direction.right => "||"
  | Cardinality.zeroOrMore, Direction.right => "o\x7b"
  | Cardinality.oneOrMore, Direction.right => "|\x7b"

/-- Embeds `struct Relationship` from `src/erd/relationship.rs`. -/
structure Relationship where
  left_id : EntityId
  right_id : EntityId
  left_cardinality : Cardinality
  right_cardinality : Cardinality
  is_identifying : Bool
  label : Option String
deriving DecidableEq, Repr

/-- Embeds `Relationship::new`: the endpoint strings are coerced through
`EntityId::from`; identifying by default, no label. -/
def Relationship.new (left_id right_id : String)
    (left_cardinality right_cardinality : Cardinality) : Relationship :=
  { left_id := EntityId.fromStr left_id
    right_id := EntityId.fromStr right_id
    left_cardinality := left_cardinality
    right_cardinality := right_cardinality
    is_identifying := true
    label := none }

/-- Embeds `Relationship::as_non_identifying`. -/
def Relationship.as_non_identifying (r : Relationship) : Relationship :=
  { r with is_identifying := false }

/-- Embeds `Relationship::with_label`. -/
def Relationship.with_label (r : Relationship) (label : String) : Relationship :=
  { r with label := some label }

/-- Embeds `impl fmt::Display for Relationship` from `src/erd/relationship.rs`. -/
def Relationship.display (r : Relationship) : String :=
  let left_str := r.left_id.as_str ++ " " ++ r.left_cardinality.fmt_with_direction Direction.left
  let right_str := r.right_cardinality.fmt_with_direction Direction.right ++ " " ++ r.right_id.as_str
  let relationship_str :=
    if r.is_identifying then left_str ++ "--" ++ right_str
    else left_str ++ ".." ++ right_str
  match r.label with
  | some label => relationship_str ++ " : \"" ++ label ++ "\""
  | none => relationship_str

/-! ### The `ERD` container and its operations (`src/erd/mod.rs`) -/

/-- Embeds `struct ERD` from `src/erd/mod.rs`; the `HashMap` of entities is
modelled as an association list. -/
structure ERD where
  title : Option String
  entities : List (EntityId × Entity)
  relationships : List Relationship

/-- Embeds `ERD::new`. -/
def ERD.new : ERD :=
  { title := none, entities := [], relationships := [] }

/-- Embeds `ERD::add_entity`: insert keyed by `EntityId::from(entity.id)`. -/
def ERD.add_entity (e : ERD) (entity : Entity) : ERD :=
  { e with entities := insertKey e.entities (EntityId.fromStr entity.id) entity }

/-- Embeds `ERD::with_entity`. -/
def ERD.with_entity (e : ERD) (entity : Entity) : ERD :=
  e.add_entity entity

/-- Embeds `ERD::get_entity_by_id`. -/
def ERD.get_entity_by_id (e : ERD) (id : EntityId) : Option Entity :=
  lookupKey e.entities id

/-- Embeds `ERD::create_entity_if_missing`: insert a bare `Entity::new(id)`
only when the id is absent. -/
def ERD.create_entity_if_missing (e : ERD) (id : EntityId) : ERD :=
  if (e.get_entity_by_id id).isNone then e.add_entity (Entity.new id.as_str) else e

/-- Embeds `ERD::add_relationship`: ensure both endpoints exist, then push
the relationship. -/
def ERD.add_relationship (e : ERD) (relationship : Relationship) : ERD :=
  let e := e.create_entity_if_missing relationship.left_id
  let e := e.create_entity_if_missing relationship.right_id
  { e with relationships := e.relationships ++ [relationship] }

/-- Embeds `ERD::with_relationship`. -/
def ERD.with_relationship (e : ERD) (relationship : Relationship) : ERD :=
  e.add_relationship relationship

/-- The ERDs reachable by any sequence of the public construction
operations of `src/erd/mod.rs`. -/
inductive ReachableERD : ERD → Prop where
  | new : ReachableERD ERD.new
  | add_entity {e : ERD} (entity : Entity) :
      ReachableERD e → ReachableERD (e.add_entity entity)
  | with_entity {e : ERD} (entity : Entity) :
      ReachableERD e → ReachableERD (e.with_entity entity)
  | create_entity_if_missing {e : ERD} (id : EntityId) :
      ReachableERD e → ReachableERD (e.create_entity_if_missing id)
  | add_relationship {e : ERD} (r : Relationship) :
      ReachableERD e → ReachableERD (e.add_relationship r)
  | with_relationship {e : ERD} (r : Relationship) :
      ReachableERD e → ReachableERD (e.with_relationship r)

/-! ### `src/requirement/requirement.rs` — requirement model -/

namespace Req

/-- Embeds `enum RequirementType` from `src/requirement/requirement.rs`. -/
inductive RequirementType where
  | default
  | functional
  | interface
  | performance
  | physical
  | designConstraint
deriving DecidableEq, Repr

/-- Embeds `impl fmt::Display for RequirementType`. -/
def RequirementType.display (t : RequirementType) : String :=
  match t with
  | RequirementType.default => "requirement"
  | RequirementType.functional => "functionalRequirement"
  | RequirementType.interface => "interfaceRequirement"
  | RequirementType.performance => "performanceRequirement"
  | RequirementType.physical => "physicalRequirement"
  | RequirementType.designConstraint => "designConstraint"

/-- Embeds `enum Risk` from `src/requirement/requirement.rs`. -/
inductive Risk where
  | low
  | medium
  | high
deriving DecidableEq, Repr

/-- Embeds `impl fmt::Display for Risk`. -/
def Risk.display (r : Risk) : String :=
  match r with
  | Risk.high => "High"
  | Risk.medium => "Medium"
  | Risk.low => "Low"

/-- Embeds `enum VerifyMethod` from `src/requirement/requirement.rs`. -/
inductive VerifyMethod where
  | analysis
  | inspection
  | test
  | demo
deriving DecidableEq, Repr

/-- Embeds `impl fmt::Display for VerifyMethod` (lines 56-66); note that
`Demo` renders as the full word. -/
def VerifyMethod.display (m : VerifyMethod) : String :=
  match m with
  | VerifyMethod.analysis => "Analysis"
  | VerifyMethod.inspection => "Inspection"
  | VerifyMethod.test => "Test"
  | VerifyMethod.demo => "Demonstration"

/-- Embeds `struct Requirement` from `src/requirement/requirement.rs`. -/
structure Requirement where
  kind : RequirementType
  name : String
  id : String
  text : Option String
  risk : Option Risk
  verify_method : Option VerifyMethod
deriving DecidableEq, Repr

/-- Embeds `Requirement::new`. -/
def Requirement.new (kind : RequirementType) (name id : String) : Requirement :=
  { kind := kind, name := name, id := id, text := none, risk := none, verify_method := none }

/-- Embeds `Requirement::with_text`. -/
def Requirement.with_text (r : Requirement) (text : String) : Requirement :=
  { r with text := some text }

/-- Embeds `Requirement::with_risk`. -/
def Requirement.with_risk (r : Requirement) (risk : Risk) : Requirement :=
  { r with risk := some risk }

/-- Embeds `Requirement::with_verify_method`. -/
def Requirement.with_verify_method (r : Requirement) (method : VerifyMethod) : Requirement :=
  { r with verify_method := some method }

/-- Embeds `impl fmt::Display for Requirement` (lines 109-131): kind and
name with an open bracket, the id line, then risk, text and verify method
lines when those fields are populated, then the closing bracket. -/
def Requirement.display (r : Requirement) : String :=
  let out_str := r.kind.display ++ " " ++ r.name ++ " \x7b"
  let out_str := out_str ++ "\n    id: " ++ r.id
  let out_str :=
    match r.risk with
    | some risk => out_str ++ "\n    risk: " ++ risk.display
    | none => out_str
  let out_str :=
    match r.text with
    | some text => out_str ++ "\n    text: \"" ++ text ++ "\""
    | none => out_str
  let out_str :=
    match r.verify_method with
    | some method => out_str ++ "\n    verifymethod: " ++ method.display
    | none => out_str
  out_str ++ "\n\x7d"

/-! ### `src/requirement/relationship.rs` — requirement-diagram relationships -/

/-- Embeds `enum RelationshipType` from `src/requirement/relationship.rs`. -/
inductive RelationshipType where
  | contains
  | copies
  | derives
  | satisfies
  | verifies
  | refines
  | traces
deriving DecidableEq, Repr

/-- Embeds `impl fmt::Display for RelationshipType`. -/
def RelationshipType.display (t : RelationshipType) : String :=
  match t with
  | RelationshipType.contains => "contains"
  | RelationshipType.copies => "copies"
  | RelationshipType.derives => "derives"
  | RelationshipType.satisfies => "satisfies"
  | RelationshipType.verifies => "verifies"
  | RelationshipType.refines => "refines"
  | RelationshipType.traces => "traces"

/-- Embeds `struct Relationship` from `src/requirement/relationship.rs`. -/
structure Relationship where
  source : String
  target : String
  kind : RelationshipType
deriving DecidableEq, Repr

/-- Embeds `Relationship::new` from `src/requirement/relationship.rs`. -/
def Relationship.new (source target : String) (kind : RelationshipType) : Relationship :=
  { source := source, target := target, kind := kind }

/-- Embeds `impl fmt::Display for Relationship` from
`src/requirement/relationship.rs`. -/
def Relationship.display (r : Relationship) : String :=
  r.source ++ " - " ++ r.kind.display ++ " -> " ++ r.target

/-! ### `src/req/element.rs` — elements -/

/-- Embeds `struct Element` from `src/req/element.rs`. -/
structure Element where
  name : String
  kind : String
  docref : Option String
deriving DecidableEq, Repr

/-- Embeds `Element::new`. -/
def Element.new (name kind : String) : Element :=
  { name := name, kind := kind, docref := none }

/-- Embeds `Element::with_docref`. -/
def Element.with_docref (e : Element) (docref : String) : Element :=
  { e with docref := some docref }

/-! ### `src/req/mod.rs` — the `RequirementDiagram` container -/

/-- Embeds `struct RequirementDiagram` from `src/req/mod.rs`; both
`HashMap`s are modelled as association lists keyed by `String`. -/
structure RequirementDiagram where
  requirements : List (String × Requirement)
  elements : List (String × Element)
  relationships : List Relationship

/-- Embeds `RequirementDiagram::new`. -/
def RequirementDiagram.new : RequirementDiagram :=
  { requirements := [], elements := [], relationships := [] }

/-- Embeds `RequirementDiagram::add_element`: insert keyed by the element
name. -/
def RequirementDiagram.add_element (d : RequirementDiagram) (e : Element) : RequirementDiagram :=
  { d with elements := insertKey d.elements e.name e }

/-- Embeds `RequirementDiagram::with_element`. -/
def RequirementDiagram.with_element (d : RequirementDiagram) (e : Element) : RequirementDiagram :=
  d.add_element e

/-- Embeds `RequirementDiagram::get_element_by_name`. -/
def RequirementDiagram.get_element_by_name (d : RequirementDiagram) (name : String) :
    Option Element :=
  lookupKey d.elements name

/-- Embeds `RequirementDiagram::add_requirement`: insert keyed by the
requirement name. -/
def RequirementDiagram.add_requirement (d : RequirementDiagram) (req : Requirement) :
    RequirementDiagram :=
  { d with requirements := insertKey d.requirements req.name req }

/-- Embeds `RequirementDiagram::with_requirement`. -/
def RequirementDiagram.with_requirement (d : RequirementDiagram) (req : Requirement) :
    RequirementDiagram :=
  d.add_requirement req

/-- Embeds `RequirementDiagram::found_in_diagram` (lines 130-132). -/
def RequirementDiagram.found_in_diagram (d : RequirementDiagram) (name : String) : Bool :=
  containsKey d.elements name || containsKey d.requirements name

/-- Embeds `RequirementDiagram::add_relationship` (lines 107-121).  The two
`assert!` calls panic when an endpoint is missing; a panic is modelled as
returning `some` panic message together with the state as it was when the
panic fired (the relationship has not been pushed), and a normal return as
`none` with the updated state. -/
def RequirementDiagram.add_relationship (d : RequirementDiagram) (r : Relationship) :
    Option String × RequirementDiagram :=
  if d.found_in_diagram r.source = false then
    (some (r.source ++ " isn\x27t found in the list of elements or requirements"), d)
  else if d.found_in_diagram r.target = false then
    (some (r.target ++ " isn\x27t found in the list of elements or requirements"), d)
  else
    (none, { d with relationships := d.relationships ++ [r] })

end Req

/-! ### `src/utils.rs` — the indentation helper

`str::indent` maps Rust `self.lines()` over the receiver, prefixes each
line with `size` spaces and rejoins with a newline.  Rust `str::lines`
splits at newline characters, strips one carriage return left at the end
of a line that was terminated by a newline, and does not produce a final
empty line for a trailing newline.  The model works on `List Char`
(`String.data`) so that the splitting functions are plain structural
recursions. -/

/-- One step of Rust `str::lines`: remove a single trailing carriage
return from a line that was terminated by a newline. -/
def stripCR (l : List Char) : List Char :=
  if l.getLast? = some '\r' then l.dropLast else l

/-- Split a character list at every newline; always returns at least one
(possibly empty) chunk, mirroring `str::split('\n')`. -/
def splitNL : List Char → List (List Char)
  | [] => [[]]
  | c :: cs =>
    if c = '\n' then [] :: splitNL cs
    else
      match splitNL cs with
      | [] => [[c]]
      | l :: ls => (c :: l) :: ls

/-- Turn the chunks of `splitNL` into the lines Rust `str::lines` yields:
every chunk that was terminated by a newline loses one trailing carriage
return, and the final chunk is dropped when it is empty (a trailing
newline does not open a new line). -/
def finishLines : List (List Char) → List (List Char)
  | [] => []
  | [l] => if l = [] then [] else [l]
  | l :: l2 :: ls => stripCR l :: finishLines (l2 :: ls)

/-- Model of Rust `str::lines` on character lists. -/
def rustLines (cs : List Char) : List (List Char) :=
  finishLines (splitNL cs)

/-- Model of `Vec::join("\n")` on character lists. -/
def joinNL : List (List Char) → List Char
  | [] => []
  | [l] => l
  | l :: l2 :: ls => l ++ '\n' :: joinNL (l2 :: ls)

/-- Embeds `Indent::indent` from `src/utils.rs` on character lists:
`self.lines().map(|line| format!("{indentation}{line}")).join("\n")`. -/
def indentChars (cs : List Char) (size : Nat) : List Char :=
  joinNL ((rustLines cs).map (fun line => List.replicate size ' ' ++ line))

/-- Model of Rust `str::lines` on `String`. -/
def lines (s : String) : List String :=
  (rustLines s.data).map (fun l => ⟨l⟩)

/-- Embeds `Indent::indent` from `src/utils.rs` on `String` (the source
implements the trait identically for `str` and `String`). -/
def indent (s : String) (size : Nat) : String :=
  ⟨indentChars s.data size⟩

/-- A string of `n` spaces, `" ".repeat(size)` in the source. -/
def spacesStr (n : Nat) : String :=
  ⟨List.replicate n ' '⟩

/-! ## Spec-side definitions

The following definitions are written from the words of the specification,
not from the source, to be compared with the source-derived displays. -/

/-- Written from the spec: the left-side cardinality symbol table. -/
def specLeftSymbol : Cardinality → String
  | Cardinality.zeroOrOne => "|o"
  | Cardinality.exactlyOne => "||"
  | Cardinality.zeroOrMore => "\x7do"
  | Cardinality.oneOrMore => "\x7d|"

/-- Written from the spec: the right-side cardinality symbol table. -/
def specRightSymbol : Cardinality → String
  | Cardinality.zeroOrOne => "o|"
  | Cardinality.exactlyOne => "||"
  | Cardinality.zeroOrMore => "o\x7b"
  | Cardinality.oneOrMore => "|\x7b"

/-- Written from the spec: the abbreviations of the key-constraint flags
that are set, in the fixed order PK, FK, UK. -/
def keyConstraintAbbrevsSpec (p f u : Bool) : List String :=
  (if p then ["PK"] else []) ++ (if f then ["FK"] else []) ++ (if u then ["UK"] else [])

/-! ## Claim theorems -/

/-- C3: the claim says entity identifiers are case-normalized to uppercase,
so that the ids built from "album" and from "ALBUM" denote the same entity
key.  The source `impl From<&str> for EntityId` stores the string verbatim
(`EntityId(s.to_string())`), so the two ids differ; this contradicts the
doc comment on `Entity::id` in `src/erd/entity.rs` ("will be cast to
uppercase").  This theorem evaluates the code at the failing input. -/
theorem entity_id_not_uppercased :
    EntityId.fromStr "album" ≠ EntityId.fromStr "ALBUM"
      ∧ (EntityId.fromStr "album").val = "album" := by
  exact ⟨by decide, rfl⟩

/-- C4: the claim says an entity with a non-empty attribute list renders
with a braced block containing each attribute line.  The source
`impl fmt::Display for Entity` (src/erd/entity.rs lines 48-58) renders only
the id and optional alias and never consults `attributes`, contradicting
the test `display_erd_with_entities_and_their_attributes` in
`src/erd/mod.rs`.  This theorem evaluates the code at the failing input:
the entity has one attribute yet renders as the bare id. -/
theorem entity_display_ignores_attributes :
    ((Entity.new "ALBUM").add_attribute (Attribute.new "string" "foo")).attributes.length = 1
      ∧ ((Entity.new "ALBUM").add_attribute (Attribute.new "string" "foo")).display = "ALBUM" := by
  exact ⟨rfl, rfl⟩

/-- C5: an ERD relationship renders as the left id, the direction-dependent
cardinality symbols around a solid (`--`, identifying) or dashed (`..`)
line, the right id, and a quoted label exactly when one is set; in
particular the two concrete renderings given by the spec hold. -/
theorem erd_relationship_render :
    (∀ r : Relationship, r.display =
      r.left_id.val ++ " " ++ specLeftSymbol r.left_cardinality
        ++ (if r.is_identifying then "--" else "..")
        ++ specRightSymbol r.right_cardinality ++ " " ++ r.right_id.val
        ++ (match r.label with | some l => " : \"" ++ l ++ "\"" | none => ""))
    ∧ (Relationship.new "ALBUM" "SONG" Cardinality.zeroOrOne Cardinality.zeroOrMore).display
        = "ALBUM |o--o\x7b SONG"
    ∧ ((Relationship.new "ALBUM" "SONG" Cardinality.exactlyOne
          Cardinality.oneOrMore).as_non_identifying.with_label "includes").display
        = "ALBUM ||..|\x7b SONG : \"includes\"" := by
  refine ⟨?_, by decide, by decide⟩
  have hL : ∀ c : Cardinality, c.fmt_with_direction Direction.left = specLeftSymbol c := by
    intro c
    cases c <;> rfl
  have hR : ∀ c : Cardinality, c.fmt_with_direction Direction.right = specRightSymbol c := by
    intro c
    cases c <;> rfl
  intro r
  obtain ⟨lid, rid, lc, rc, ident, lab⟩ := r
  cases ident <;> cases lab <;>
    simp [Relationship.display, EntityId.as_str, hL, hR, String.append_assoc]

/-- C6: a requirement renders as the kind keyword and name with an opening
brace, an indented id line, then optional risk, text and verify-method
lines in that fixed order (only present fields emitted), then a closing
brace; `Demo` renders as "Demonstration"; in particular the concrete
requirement of the spec renders exactly as quoted. -/
theorem requirement_render :
    (∀ r : Req.Requirement, r.display =
      r.kind.display ++ " " ++ r.name ++ " \x7b" ++ "\n    id: " ++ r.id
        ++ (match r.risk with | some k => "\n    risk: " ++ k.display | none => "")
        ++ (match r.text with | some t => "\n    text: \"" ++ t ++ "\"" | none => "")
        ++ (match r.verify_method with
            | some m => "\n    verifymethod: " ++ m.display
            | none => "")
        ++ "\n\x7d")
    ∧ Req.VerifyMethod.demo.display = "Demonstration"
    ∧ ((((Req.Requirement.new Req.RequirementType.functional "Foo" "Bar").with_risk
          Req.Risk.low).with_text "Foo bar").with_verify_method Req.VerifyMethod.demo).display
        = "functionalRequirement Foo \x7b\n    id: Bar\n    risk: Low\n    text: \"Foo bar\"\n    verifymethod: Demonstration\n\x7d" := by
  refine ⟨?_, rfl, by decide⟩
  intro r
  obtain ⟨kind, name, id, text, risk, vm⟩ := r
  cases risk <;> cases text <;> cases vm <;>
    simp only [Req.Requirement.display, String.ext_iff, String.data_append, List.append_assoc,
      List.nil_append, List.append_nil]

/-- C7: the rendered key-constraint suffix is the comma-space join, in the
fixed order PK, FK, UK, of the abbreviations of the flags that are true
(so all three true gives "PK, FK, UK"), and an attribute with no
constraint set renders as just `type name` with no extra space (plus the
optional quoted comment). -/
theorem key_constraints_render :
    (∀ p f u : Bool, KeyConstraints.display ⟨p, f, u⟩ =
        String.intercalate ", " (keyConstraintAbbrevsSpec p f u))
    ∧ KeyConstraints.display ⟨true, true, true⟩ = "PK, FK, UK"
    ∧ (∀ t n : String, (Attribute.new t n).display = t ++ " " ++ n)
    ∧ (∀ t n c : String,
        ((Attribute.new t n).with_comment c).display = t ++ " " ++ n ++ " \"" ++ c ++ "\"") := by
  refine ⟨?_, by decide, ?_, ?_⟩
  · intro p f u
    cases p <;> cases f <;> cases u <;> rfl
  · intro t n
    rfl
  · intro t n c
    rfl

/-! ## Lemmas about the ERD container operations -/

theorem create_entity_if_missing_relationships (e : ERD) (id : EntityId) :
    (e.create_entity_if_missing id).relationships = e.relationships := by
  unfold ERD.create_entity_if_missing
  split <;> rfl

theorem create_entity_if_missing_of_present {e : ERD} {id : EntityId}
    (h : containsKey e.entities id = true) : e.create_entity_if_missing id = e := by
  unfold ERD.create_entity_if_missing
  have hl : lookupKey e.entities id ≠ none := by
    intro hn
    rw [(lookupKey_eq_none_iff e.entities id).mp hn] at h
    exact Bool.false_ne_true h
  rw [if_neg]
  simp only [ERD.get_entity_by_id, Option.isNone_iff_eq_none]
  exact hl

theorem create_entity_if_missing_of_missing {e : ERD} {id : EntityId}
    (h : containsKey e.entities id = false) :
    (e.create_entity_if_missing id).entities
      = insertKey e.entities id (Entity.new id.val) := by
  unfold ERD.create_entity_if_missing
  rw [if_pos]
  · rfl
  · simp only [ERD.get_entity_by_id, Option.isNone_iff_eq_none]
    exact (lookupKey_eq_none_iff e.entities id).mpr h

theorem containsKey_create_entity_if_missing_self (e : ERD) (id : EntityId) :
    containsKey (e.create_entity_if_missing id).entities id = true := by
  cases h : containsKey e.entities id with
  | true => rw [create_entity_if_missing_of_present h]; exact h
  | false => rw [create_entity_if_missing_of_missing h]; exact containsKey_insertKey_self _ _ _

theorem containsKey_create_entity_if_missing_mono {e : ERD} {k : EntityId} (id : EntityId)
    (h : containsKey e.entities k = true) :
    containsKey (e.create_entity_if_missing id).entities k = true := by
  cases hm : containsKey e.entities id with
  | true => rw [create_entity_if_missing_of_present hm]; exact h
  | false =>
    rw [create_entity_if_missing_of_missing hm]
    exact containsKey_insertKey_of_containsKey _ _ h

theorem add_relationship_relationships (e : ERD) (r : Relationship) :
    (e.add_relationship r).relationships = e.relationships ++ [r] := by
  show ((e.create_entity_if_missing r.left_id).create_entity_if_missing
      r.right_id).relationships ++ [r] = e.relationships ++ [r]
  rw [create_entity_if_missing_relationships, create_entity_if_missing_relationships]

theorem add_relationship_entities (e : ERD) (r : Relationship) :
    (e.add_relationship r).entities
      = ((e.create_entity_if_missing r.left_id).create_entity_if_missing r.right_id).entities :=
  rfl

/-- C1: every ERD reachable through the public construction operations
satisfies the no-dangling invariant — each relationship's endpoints are
keys of the entities map — and `add_relationship` never rejects: it always
appends the relationship, after creating a bare placeholder entity (no
alias, no attributes: exactly `Entity::new(id)`) for each endpoint that is
missing. -/
theorem erd_relationships_never_dangle :
    (∀ e : ERD, ReachableERD e → ∀ r ∈ e.relationships,
      containsKey e.entities r.left_id = true ∧ containsKey e.entities r.right_id = true)
    ∧ (∀ (e : ERD) (r : Relationship),
      (e.add_relationship r).relationships = e.relationships ++ [r]
        ∧ (containsKey e.entities r.left_id = false →
            lookupKey (e.add_relationship r).entities r.left_id
              = some (Entity.new r.left_id.val))
        ∧ (containsKey e.entities r.right_id = false →
            lookupKey (e.add_relationship r).entities r.right_id
              = some (Entity.new r.right_id.val))) := by
  constructor
  · intro e he
    induction he with
    | new => intro r hr; exact absurd hr (List.not_mem_nil r)
    | add_entity entity _ ih =>
      intro r hr
      have h := ih r hr
      exact ⟨containsKey_insertKey_of_containsKey _ _ h.1,
        containsKey_insertKey_of_containsKey _ _ h.2⟩
    | with_entity entity _ ih =>
      intro r hr
      have h := ih r hr
      exact ⟨containsKey_insertKey_of_containsKey _ _ h.1,
        containsKey_insertKey_of_containsKey _ _ h.2⟩
    | create_entity_if_missing id _ ih =>
      intro r hr
      rw [create_entity_if_missing_relationships] at hr
      have h := ih r hr
      exact ⟨containsKey_create_entity_if_missing_mono id h.1,
        containsKey_create_entity_if_missing_mono id h.2⟩
    | add_relationship r0 _ ih =>
      intro r hr
      rw [add_relationship_relationships, List.mem_append] at hr
      rw [add_relationship_entities]
      rcases hr with hr | hr
      · have h := ih r hr
        exact ⟨containsKey_create_entity_if_missing_mono _
            (containsKey_create_entity_if_missing_mono _ h.1),
          containsKey_create_entity_if_missing_mono _
            (containsKey_create_entity_if_missing_mono _ h.2)⟩
      · rw [List.mem_singleton] at hr
        subst hr
        exact ⟨containsKey_create_entity_if_missing_mono _
            (containsKey_create_entity_if_missing_self _ _),
          containsKey_create_entity_if_missing_self _ _⟩
    | with_relationship r0 _ ih =>
      intro r hr
      simp only [ERD.with_relationship] at hr ⊢
      rw [add_relationship_relationships, List.mem_append] at hr
      rw [add_relationship_entities]
      rcases hr with hr | hr
      · have h := ih r hr
        exact ⟨containsKey_create_entity_if_missing_mono _
            (containsKey_create_entity_if_missing_mono _ h.1),
          containsKey_create_entity_if_missing_mono _
            (containsKey_create_entity_if_missing_mono _ h.2)⟩
      · rw [List.mem_singleton] at hr
        subst hr
        exact ⟨containsKey_create_entity_if_missing_mono _
            (containsKey_create_entity_if_missing_self _ _),
          containsKey_create_entity_if_missing_self _ _⟩
  · intro e r
    refine ⟨add_relationship_relationships e r, ?_, ?_⟩
    · intro hmiss
      rw [add_relationship_entities]
      have h1 : lookupKey (e.create_entity_if_missing r.left_id).entities r.left_id
          = some (Entity.new r.left_id.val) := by
        rw [create_entity_if_missing_of_missing hmiss]
        exact lookupKey_insertKey_self _ _ _
      cases h2 : containsKey (e.create_entity_if_missing r.left_id).entities r.right_id with
      | true => rw [create_entity_if_missing_of_present h2]; exact h1
      | false =>
        have hne : r.left_id ≠ r.right_id := by
          intro hEq
          rw [← hEq, containsKey_create_entity_if_missing_self] at h2
          exact Bool.true_eq_false ▸ (by simp at h2)
        rw [create_entity_if_missing_of_missing h2,
          lookupKey_insertKey_of_ne _ hne]
        exact h1
    · intro hmiss
      rw [add_relationship_entities]
      cases h1 : containsKey e.entities r.left_id with
      | true =>
        rw [create_entity_if_missing_of_present h1]
        rw [create_entity_if_missing_of_missing hmiss]
        exact lookupKey_insertKey_self _ _ _
      | false =>
        by_cases hEq : r.left_id = r.right_id
        · have hc : containsKey (e.create_entity_if_missing r.left_id).entities r.right_id
              = true := by
            rw [← hEq]
            exact containsKey_create_entity_if_missing_self e r.left_id
          rw [create_entity_if_missing_of_present hc,
            create_entity_if_missing_of_missing h1, ← hEq]
          rw [lookupKey_insertKey_self, hEq]
        · have hc : containsKey (e.create_entity_if_missing r.left_id).entities r.right_id
              = false := by
            rw [create_entity_if_missing_of_missing h1,
              containsKey_insertKey_of_ne _ (Ne.symm hEq)]
            exact hmiss
          rw [create_entity_if_missing_of_missing hc]
          exact lookupKey_insertKey_self _ _ _

/-- Concrete relationship used by the C1 witness. -/
def relW : Relationship :=
  Relationship.new "ALBUM" "SONG" Cardinality.exactlyOne Cardinality.oneOrMore

/-- Concrete reachable ERD used by the C1 witness. -/
def erdW : ERD := ERD.new.with_relationship relW

/-- Witness for C1 at a concrete reachable ERD. -/
theorem erd_relationships_never_dangle_witness :
    containsKey erdW.entities relW.left_id = true
      ∧ containsKey erdW.entities relW.right_id = true :=
  erd_relationships_never_dangle.1 erdW
    (ReachableERD.with_relationship relW ReachableERD.new) relW (by decide)

/-- C9: `add_relationship` between two ids not previously present (two
distinct fresh ids) grows the entities map by exactly 2 and the
relationship list by 1; between two pre-existing ids it leaves the
entities map length unchanged while still growing the relationship list
by 1. -/
theorem erd_add_relationship_counts (e : ERD) (r : Relationship) :
    (containsKey e.entities r.left_id = false →
      containsKey e.entities r.right_id = false →
      r.left_id ≠ r.right_id →
      (e.add_relationship r).entities.length = e.entities.length + 2
        ∧ (e.add_relationship r).relationships.length = e.relationships.length + 1)
    ∧ (containsKey e.entities r.left_id = true →
      containsKey e.entities r.right_id = true →
      (e.add_relationship r).entities.length = e.entities.length
        ∧ (e.add_relationship r).relationships.length = e.relationships.length + 1) := by
  have hlen : (e.add_relationship r).relationships.length = e.relationships.length + 1 := by
    rw [add_relationship_relationships, List.length_append, List.length_singleton]
  constructor
  · intro hleft hright hne
    refine ⟨?_, hlen⟩
    rw [add_relationship_entities]
    have h1 : (e.create_entity_if_missing r.left_id).entities
        = insertKey e.entities r.left_id (Entity.new r.left_id.val) :=
      create_entity_if_missing_of_missing hleft
    have h2 : containsKey (e.create_entity_if_missing r.left_id).entities r.right_id = false := by
      rw [h1, containsKey_insertKey_of_ne _ (Ne.symm hne)]
      exact hright
    rw [create_entity_if_missing_of_missing h2, h1]
    rw [h1] at h2
    rw [length_insertKey_of_not_containsKey _ h2,
      length_insertKey_of_not_containsKey _ hleft]
  · intro hleft hright
    refine ⟨?_, hlen⟩
    rw [add_relationship_entities, create_entity_if_missing_of_present hleft,
      create_entity_if_missing_of_present hright]

/-- Concrete fresh-endpoint relationship for the C9 witness. -/
def relC9 : Relationship :=
  Relationship.new "ALBUM" "SONG" Cardinality.exactlyOne Cardinality.oneOrMore

/-- Concrete ERD that already holds both endpoint entities, for the C9
witness. -/
def erdC9 : ERD := (ERD.new.with_entity (Entity.new "ALBUM")).with_entity (Entity.new "SONG")

/-- Witness for C9: both branches applied at concrete inputs. -/
theorem erd_add_relationship_counts_witness :
    ((ERD.new.add_relationship relC9).entities.length = ERD.new.entities.length + 2
      ∧ (ERD.new.add_relationship relC9).relationships.length
          = ERD.new.relationships.length + 1)
    ∧ ((erdC9.add_relationship relC9).entities.length = erdC9.entities.length
      ∧ (erdC9.add_relationship relC9).relationships.length
          = erdC9.relationships.length + 1) :=
  ⟨(erd_add_relationship_counts ERD.new relC9).1 (by decide) (by decide) (by decide),
    (erd_add_relationship_counts erdC9 relC9).2 (by decide) (by decide)⟩

/-- C10: adding a self-relationship (equal endpoint ids) whose id is not
yet an entity key creates exactly one entity, not two, and still appends
the relationship. -/
theorem erd_add_relationship_self_loop (e : ERD) (r : Relationship)
    (hself : r.left_id = r.right_id)
    (hmiss : containsKey e.entities r.left_id = false) :
    (e.add_relationship r).entities.length = e.entities.length + 1
      ∧ (e.add_relationship r).relationships.length = e.relationships.length + 1 := by
  have hlen : (e.add_relationship r).relationships.length = e.relationships.length + 1 := by
    rw [add_relationship_relationships, List.length_append, List.length_singleton]
  refine ⟨?_, hlen⟩
  rw [add_relationship_entities]
  have h1 : (e.create_entity_if_missing r.left_id).entities
      = insertKey e.entities r.left_id (Entity.new r.left_id.val) :=
    create_entity_if_missing_of_missing hmiss
  have h2 : containsKey (e.create_entity_if_missing r.left_id).entities r.right_id = true := by
    rw [← hself]
    exact containsKey_create_entity_if_missing_self e r.left_id
  rw [create_entity_if_missing_of_present h2, h1,
    length_insertKey_of_not_containsKey _ hmiss]

/-- Concrete self-relationship for the C10 witness. -/
def relC10 : Relationship :=
  Relationship.new "NODE" "NODE" Cardinality.exactlyOne Cardinality.oneOrMore

/-- Witness for C10 at a concrete input. -/
theorem erd_add_relationship_self_loop_witness :
    (ERD.new.add_relationship relC10).entities.length = ERD.new.entities.length + 1
      ∧ (ERD.new.add_relationship relC10).relationships.length
          = ERD.new.relationships.length + 1 :=
  erd_add_relationship_self_loop ERD.new relC10 rfl (by decide)

/-- C2: `RequirementDiagram::add_relationship` with a source or target that
is a key of neither `elements` nor `requirements` fails fast — the
`assert!` panics with a message naming the missing identifier — and the
diagram is left unchanged (in particular `relationships` is not extended);
when both endpoints are present it does not fail and appends the
relationship. -/
theorem req_add_relationship_precondition (d : Req.RequirementDiagram)
    (r : Req.Relationship) :
    (d.found_in_diagram r.source = false →
      d.add_relationship r
        = (some (r.source ++ " isn\x27t found in the list of elements or requirements"), d))
    ∧ (d.found_in_diagram r.source = true → d.found_in_diagram r.target = false →
      d.add_relationship r
        = (some (r.target ++ " isn\x27t found in the list of elements or requirements"), d))
    ∧ (d.found_in_diagram r.source = true → d.found_in_diagram r.target = true →
      d.add_relationship r
        = (none, { d with relationships := d.relationships ++ [r] })) := by
  refine ⟨?_, ?_, ?_⟩
  · intro hs
    simp [Req.RequirementDiagram.add_relationship, hs]
  · intro hs ht
    simp [Req.RequirementDiagram.add_relationship, hs, ht]
  · intro hs ht
    simp [Req.RequirementDiagram.add_relationship, hs, ht]

/-- Concrete requirement diagram holding one element and one requirement,
for the C2 witness. -/
def reqDiagW : Req.RequirementDiagram :=
  (Req.RequirementDiagram.new.with_element (Req.Element.new "foo" "brief")).with_requirement
    (Req.Requirement.new Req.RequirementType.default "milestone" "1.1.1")

/-- Concrete valid relationship for the C2 witness. -/
def reqRelW : Req.Relationship :=
  Req.Relationship.new "foo" "milestone" Req.RelationshipType.satisfies

/-- Witness for C2: the failing branch at an empty diagram and the
succeeding branch at a populated one. -/
theorem req_add_relationship_precondition_witness :
    (Req.RequirementDiagram.new.add_relationship
        (Req.Relationship.new "Fake" "bar" Req.RelationshipType.satisfies)
      = (some "Fake isn\x27t found in the list of elements or requirements",
          Req.RequirementDiagram.new))
    ∧ (reqDiagW.add_relationship reqRelW
      = (none, { reqDiagW with relationships := reqDiagW.relationships ++ [reqRelW] })) :=
  ⟨(req_add_relationship_precondition Req.RequirementDiagram.new
      (Req.Relationship.new "Fake" "bar" Req.RelationshipType.satisfies)).1 rfl,
    (req_add_relationship_precondition reqDiagW reqRelW).2.2 (by decide) (by decide)⟩

/-! ## Lemmas about the line-splitting model -/

theorem splitNL_ne_nil (cs : List Char) : splitNL cs ≠ [] := by
  induction cs with
  | nil => simp [splitNL]
  | cons c cs ih =>
    simp only [splitNL]
    split
    · simp
    · cases h : splitNL cs with
      | nil => exact absurd h ih
      | cons l ls => simp

theorem splitNL_append : ∀ (pre : List Char) {r : List Char} {rs : List (List Char)}
    (rest : List Char), '\n' ∉ pre → splitNL rest = r :: rs →
    splitNL (pre ++ rest) = (pre ++ r) :: rs := by
  intro pre
  induction pre with
  | nil =>
    intro r rs rest _ hs
    simpa using hs
  | cons c pre ih =>
    intro r rs rest hn hs
    have hc : ¬ c = '\n' := fun e => hn (by simp [e])
    have hrec := ih rest (fun m => hn (List.mem_cons_of_mem _ m)) hs
    simp only [List.cons_append, splitNL, if_neg hc]
    rw [show splitNL (pre.append rest) = (pre ++ r) :: rs from hrec]

theorem splitNL_no_nl : ∀ (cs : List Char), ∀ l ∈ splitNL cs, '\n' ∉ l := by
  intro cs
  induction cs with
  | nil =>
    intro l hl
    simp only [splitNL, List.mem_singleton] at hl
    simp [hl]
  | cons c cs ih =>
    intro l hl
    simp only [splitNL] at hl
    by_cases hc : c = '\n'
    · rw [if_pos hc] at hl
      rcases List.mem_cons.mp hl with h | h
      · simp [h]
      · exact ih l h
    · rw [if_neg hc] at hl
      cases hsp : splitNL cs with
      | nil => exact absurd hsp (splitNL_ne_nil cs)
      | cons m ms =>
        rw [hsp] at hl
        rcases List.mem_cons.mp hl with h | h
        · subst h
          intro hmem
          rcases List.mem_cons.mp hmem with h1 | h1
          · exact hc h1.symm
          · exact ih m (by rw [hsp]; exact List.mem_cons_self m ms) h1
        · exact ih l (by rw [hsp]; exact List.mem_cons_of_mem m h)

theorem splitNL_subset : ∀ (cs : List Char), ∀ l ∈ splitNL cs, ∀ x ∈ l, x ∈ cs := by
  intro cs
  induction cs with
  | nil =>
    intro l hl x hx
    simp only [splitNL, List.mem_singleton] at hl
    subst hl
    exact absurd hx (List.not_mem_nil x)
  | cons c cs ih =>
    intro l hl x hx
    simp only [splitNL] at hl
    by_cases hc : c = '\n'
    · rw [if_pos hc] at hl
      rcases List.mem_cons.mp hl with h | h
      · subst h
        exact absurd hx (List.not_mem_nil x)
      · exact List.mem_cons_of_mem c (ih l h x hx)
    · rw [if_neg hc] at hl
      cases hsp : splitNL cs with
      | nil => exact absurd hsp (splitNL_ne_nil cs)
      | cons m ms =>
        rw [hsp] at hl
        rcases List.mem_cons.mp hl with h | h
        · subst h
          rcases List.mem_cons.mp hx with h1 | h1
          · simp [h1]
          · exact List.mem_cons_of_mem c
              (ih m (by rw [hsp]; exact List.mem_cons_self m ms) x h1)
        · exact List.mem_cons_of_mem c
            (ih l (by rw [hsp]; exact List.mem_cons_of_mem m h) x hx)

theorem stripCR_sublist (l : List Char) : (stripCR l).Sublist l := by
  unfold stripCR
  split
  · exact List.dropLast_sublist l
  · exact List.Sublist.refl l

theorem mem_finishLines : ∀ {M : List (List Char)} {l : List Char},
    l ∈ finishLines M → ∃ l0 ∈ M, l.Sublist l0
  | [], l, h => by simp [finishLines] at h
  | [l0], l, h => by
    simp only [finishLines] at h
    split at h
    · exact absurd h (List.not_mem_nil l)
    · rw [List.mem_singleton] at h
      exact ⟨l0, List.mem_singleton_self l0, h ▸ List.Sublist.refl l⟩
  | l0 :: l1 :: ls, l, h => by
    simp only [finishLines] at h
    rcases List.mem_cons.mp h with h | h
    · exact ⟨l0, List.mem_cons_self _ _, h ▸ stripCR_sublist l0⟩
    · obtain ⟨l2, hm, hs⟩ := mem_finishLines h
      exact ⟨l2, List.mem_cons_of_mem _ hm, hs⟩

theorem finishLines_eq_self : ∀ {M : List (List Char)},
    (∀ l ∈ M, l ≠ [] ∧ l.getLast? ≠ some '\r') → finishLines M = M
  | [], _ => rfl
  | [l], h => by
    simp only [finishLines, if_neg (h l (List.mem_singleton_self l)).1]
  | l0 :: l1 :: ls, h => by
    have h0 := h l0 (List.mem_cons_self _ _)
    have hs : stripCR l0 = l0 := by
      unfold stripCR
      rw [if_neg h0.2]
    simp only [finishLines, hs]
    rw [finishLines_eq_self (fun l hl => h l (List.mem_cons_of_mem _ hl))]

theorem splitNL_joinNL : ∀ {M : List (List Char)}, M ≠ [] → (∀ l ∈ M, '\n' ∉ l) →
    splitNL (joinNL M) = M
  | [], h, _ => absurd rfl h
  | [l], _, hn => by
    have h1 := splitNL_append l ([] : List Char) (hn l (List.mem_singleton_self l))
      (show splitNL [] = [] :: [] from rfl)
    simpa [joinNL] using h1
  | l :: l1 :: ls, _, hn => by
    have hrec := splitNL_joinNL (M := l1 :: ls) (by simp)
      (fun m hm => hn m (List.mem_cons_of_mem _ hm))
    have hJ : splitNL ('\n' :: joinNL (l1 :: ls)) = [] :: (l1 :: ls) := by
      simp [splitNL, hrec]
    have h1 := splitNL_append l ('\n' :: joinNL (l1 :: ls))
      (hn l (List.mem_cons_self _ _)) hJ
    simpa [joinNL] using h1

theorem splitNL_ne_single_nil : ∀ {cs : List Char}, cs ≠ [] → splitNL cs ≠ [[]]
  | [], h => absurd rfl h
  | c :: cs, _ => by
    simp only [splitNL]
    split
    · intro hEq
      injection hEq with h1 h2
      exact splitNL_ne_nil cs h2
    · cases hsp : splitNL cs with
      | nil => exact absurd hsp (splitNL_ne_nil cs)
      | cons m ms =>
        intro hEq
        injection hEq with h1 h2
        exact List.cons_ne_nil c m h1

theorem finishLines_ne_nil : ∀ {M : List (List Char)}, M ≠ [] → M ≠ [[]] →
    finishLines M ≠ []
  | [], h, _ => absurd rfl h
  | [l], _, h2 => by
    have hl : l ≠ [] := by
      intro e
      exact h2 (by rw [e])
    simp only [finishLines, if_neg hl]
    simp
  | l0 :: l1 :: ls, _, _ => by simp [finishLines]

theorem rustLines_ne_nil {cs : List Char} (h : cs ≠ []) : rustLines cs ≠ [] :=
  finishLines_ne_nil (splitNL_ne_nil cs) (splitNL_ne_single_nil h)

theorem rustLines_no_nl {cs : List Char} : ∀ l ∈ rustLines cs, '\n' ∉ l := by
  intro l hl hmem
  obtain ⟨l0, hm, hs⟩ := mem_finishLines hl
  exact splitNL_no_nl cs l0 hm (hs.subset hmem)

theorem rustLines_no_cr {cs : List Char} (hcr : '\r' ∉ cs) : ∀ l ∈ rustLines cs, '\r' ∉ l := by
  intro l hl hmem
  obtain ⟨l0, hm, hs⟩ := mem_finishLines hl
  exact hcr (splitNL_subset cs l0 hm '\r' (hs.subset hmem))

theorem rustLines_indentChars {cs : List Char} {n : Nat} (hcr : '\r' ∉ cs) (hn : 1 ≤ n) :
    rustLines (indentChars cs n)
      = (rustLines cs).map (fun l => List.replicate n ' ' ++ l) := by
  by_cases hcs : cs = []
  · subst hcs
    rfl
  · set M := (rustLines cs).map (fun l => List.replicate n ' ' ++ l) with hM
    have hMne : M ≠ [] := by
      rw [hM]
      intro hc
      exact rustLines_ne_nil hcs (List.map_eq_nil_iff.mp hc)
    have hMnl : ∀ l ∈ M, '\n' ∉ l := by
      intro l hl
      rw [hM] at hl
      obtain ⟨l0, hl0, rfl⟩ := List.mem_map.mp hl
      intro hmem
      rcases List.mem_append.mp hmem with h | h
      · exact absurd (List.eq_of_mem_replicate h) (by decide)
      · exact rustLines_no_nl l0 hl0 h
    have hMok : ∀ l ∈ M, l ≠ [] ∧ l.getLast? ≠ some '\r' := by
      intro l hl
      rw [hM] at hl
      obtain ⟨l0, hl0, rfl⟩ := List.mem_map.mp hl
      constructor
      · intro hEq
        have hlen : (List.replicate n ' ').length + l0.length = 0 := by
          rw [← List.length_append, hEq]
          rfl
        rw [List.length_replicate] at hlen
        omega
      · intro hlast
        obtain ⟨ys, hy⟩ := List.getLast?_eq_some_iff.mp hlast
        have hx : '\r' ∈ List.replicate n ' ' ++ l0 := by
          rw [hy]
          simp
        rcases List.mem_append.mp hx with h | h
        · exact absurd (List.eq_of_mem_replicate h) (by decide)
        · exact rustLines_no_cr hcr l0 hl0 h
    show rustLines (joinNL M) = M
    unfold rustLines
    rw [splitNL_joinNL hMne hMnl, finishLines_eq_self hMok]

/-- C8 counterexample: the claim fails as stated.  At input `"\n"` with
indent size 0 the output has fewer lines than the input (the final empty
line disappears when the rejoined text ends in a bare newline), and at
input `"a\r\r\nb"` with indent size 4 the first output line is not four
spaces followed by the first input line (the line-splitting of the
rejoined text strips a carriage return that the original first line kept). -/
theorem indent_claim_counterexample :
    lines (indent "\n" 0) ≠ (lines "\n").map (fun l => spacesStr 0 ++ l)
      ∧ lines (indent "a\r\r\nb" 4) ≠ (lines "a\r\r\nb").map (fun l => spacesStr 4 ++ l) := by
  exact ⟨by decide, by decide⟩

/-- C8 (amended): for every input string containing no carriage return and
every indent size of at least 1, the indent helper prefixes exactly the
given number of spaces to every line of the input and changes nothing
else — the output has the same lines as the input, each prefixed with the
spaces, with no line added or removed (lines as Rust `str::lines` counts
them: a final line terminator does not open an extra empty line). -/
theorem indent_adds_spaces_per_line (s : String) (n : Nat)
    (hcr : '\r' ∉ s.data) (hn : 1 ≤ n) :
    lines (indent s n) = (lines s).map (fun l => spacesStr n ++ l) := by
  unfold lines indent spacesStr
  rw [show (⟨indentChars s.data n⟩ : String).data = indentChars s.data n from rfl]
  rw [rustLines_indentChars hcr hn]
  simp only [List.map_map]
  rfl

/-- Witness for the amended C8 at a concrete two-line input. -/
theorem indent_adds_spaces_per_line_witness :
    '\r' ∉ ("abc\ndef" : String).data ∧ 1 ≤ 4
      ∧ lines (indent "abc\ndef" 4)
          = (lines "abc\ndef").map (fun l => spacesStr 4 ++ l) :=
  ⟨by decide, by decide, indent_adds_spaces_per_line "abc\ndef" 4 (by decide) (by decide)⟩

end Mormaid
